import Mathlib

/-!
Verification of the crafting-feasibility core of the walkscape-planner
repository (src/routes/+page.svelte).  Each definition is a shallow
embedding of the corresponding function from the source; JavaScript
semantics that leak into the core (Math.min of an empty spread giving
Infinity, `|| 0` coercion, truthiness / typeof checks during the
character import) are embedded explicitly.
-/

namespace WalkscapePlanner

/-- JavaScript number values that can flow out of `Math.min` in the
evaluator: a non-negative integer or `Infinity` (the result of
`Math.min()` with no arguments, i.e. of an empty materials list). -/
inductive JsNum where
  | fin : Nat → JsNum
  | inf : JsNum
deriving DecidableEq

/-- JavaScript JSON values, as produced by `JSON.parse`. -/
inductive Json where
  | null : Json
  | bool : Bool → Json
  | num : Int → Json
  | str : String → Json
  | arr : List Json → Json
  | obj : List (String × Json) → Json

/-!  Experience table / level resolver  -/

/-- Modelled from the spec: the `SKILL_LEVELS` constant lives in
`src/lib/constants`, which is not part of the sources at hand (only its
importer `+page.svelte` is).  The spec pins: the table maps levels 1..99
to minimum cumulative experience, is monotonically non-decreasing (§3),
the level-1 threshold is 0 (§4.2), and the §8 scenario fixes
`threshold[3] = 174` and `threshold[4] = 276` (which also forces
`threshold[2] ≤ 174`; 83 below is the conventional value consistent with
that bound).  Levels ≥ 5 are extended strictly monotonically; no claim
below depends on those filler values — the claims touching the table use
only `threshold[1] = 0`, monotonicity, and the two pinned scenario
entries. -/
def SKILL_LEVELS (level : Nat) : Nat :=
  if level ≤ 1 then 0
  else if level = 2 then 83
  else if level = 3 then 174
  else if level = 4 then 276
  else 276 + (level - 4) * 120

/-- The descending search loop of `xpToLevel` (+page.svelte:864-871):
`for (let level = l; level >= 1; level--) if (xp >= SKILL_LEVELS[level])
return level;` with the final `return 1` as the base case. -/
def xpToLevelGo (xp : Nat) : Nat → Nat
  | 0 => 1
  | l + 1 => if SKILL_LEVELS (l + 1) ≤ xp then l + 1 else xpToLevelGo xp l

/-- Embedding of `xpToLevel` (+page.svelte:864-871): scan levels 99 down to 1,
returning the first level whose threshold is ≤ xp, else 1. -/
def xpToLevel (xp : Nat) : Nat := xpToLevelGo xp 99

/-- Embedding of `getSkillLevel` (+page.svelte:990-993):
`const skillXp = characterData.skills[skillName] || 0; return
xpToLevel(skillXp);`.  The character's `skills` object is passed
explicitly as an association list (JS object, unique keys). -/
def getSkillLevel (skills : List (String × Nat)) (skillName : String) : Nat :=
  let skillXp :=
    match skills.find? (fun p => p.1 == skillName) with
    | some p => p.2
    | none => 0
  xpToLevel skillXp

/-!  Item name normalizer  -/

/-- JS `name.endsWith('_fine')`, stated on the character list (the
core library's `String.endsWith` is defined by well-founded recursion
and does not evaluate inside the kernel; this structural form does). -/
def endsWithFine (s : String) : Bool := "_fine".data.isSuffixOf s.data

/-- JS `name.slice(0, -5)`: drop the five-character `_fine` suffix. -/
def dropFineSuffix (s : String) : String :=
  String.mk (s.data.take (s.data.length - 5))

/-- JS `String.prototype.split('_')` on a character list, with the JS
conventions: splitting the empty string gives `[""]`, and leading,
trailing or doubled underscores give empty words. -/
def splitUnderscore : List Char → List (List Char)
  | [] => [[]]
  | c :: rest =>
    if c = '_' then [] :: splitUnderscore rest
    else
      match splitUnderscore rest with
      | [] => [[c]]
      | w :: ws => (c :: w) :: ws

/-- One word of `normalizeItemName`:
`word.charAt(0).toUpperCase() + word.slice(1)`. -/
def capitalizeWord (word : String) : String :=
  match word.data with
  | [] => ""
  | c :: rest => String.mk (c.toUpper :: rest)

/-- JS `s.toLowerCase()` as a character-wise map (extensionally the
core `String.toLower`, which again would not kernel-evaluate). -/
def toLowerString (s : String) : String := String.mk (s.data.map Char.toLower)

/-- Embedding of `normalizeItemName` (+page.svelte:1036-1050): a raw snake_case key
ending in `_fine` is stripped, title-cased and prefixed with `"Fine "`;
otherwise the key is title-cased directly. -/
def normalizeItemName (name : String) : String :=
  if endsWithFine name then
    let baseName := dropFineSuffix name
    let normalizedBase :=
      String.intercalate " "
        ((splitUnderscore baseName.data).map (fun w => capitalizeWord (String.mk w)))
    "Fine " ++ normalizedBase
  else
    String.intercalate " "
      ((splitUnderscore name.data).map (fun w => capitalizeWord (String.mk w)))

/-- Helper for `recipeNameToInventoryName`: JS
`.replace(/\s+/g, '_')` — every maximal run of whitespace becomes one
underscore.  The boolean tracks whether the previous character was
whitespace. -/
def squashWs : List Char → Bool → List Char
  | [], _ => []
  | c :: rest, prevWs =>
    if c.isWhitespace then
      if prevWs then squashWs rest true
      else '_' :: squashWs rest true
    else c :: squashWs rest false

/-- Embedding of `recipeNameToInventoryName` (+page.svelte:1068-1070):
`recipeName.toLowerCase().replace(/\s+/g, '_')`. -/
def recipeNameToInventoryName (recipeName : String) : String :=
  String.mk (squashWs ((toLowerString recipeName).data) false)

/-!  Recipe data model (shape per scripts/generate-recipes.ts:5-19)  -/

/-- One required material `{name, amount}`. -/
structure Material where
  name : String
  amount : Nat
deriving DecidableEq

/-- A profession requirement `{name, level}`. -/
structure Profession where
  name : String
  level : Nat
deriving DecidableEq

/-- Requirements of a recipe; `profession` and `service` are optional
fields (generate-recipes.ts:8-18 emits them only when present). -/
structure Requirements where
  profession : Option Profession
  materials : List Material
  service : Option String
deriving DecidableEq

/-- A recipe record. -/
structure Recipe where
  name : String
  output : String
  requirements : Requirements
deriving DecidableEq

/-!  Crafting feasibility evaluator  -/

/-- A per-material availability record `{normal, fine}` as stored in the
`inventoryMap` handed to `calculateCraftingTimes`
(+page.svelte:1185-1189). -/
structure Avail where
  normal : Nat
  fine : Nat
deriving DecidableEq

/-- JS `inventory[inventoryName] || { normal: 0, fine: 0 }`
(+page.svelte:1092): look the key up in the map, defaulting a missing
entry to zero availability.  (An `Avail` record is always truthy in JS,
so `||` only fires on a missing key.) -/
def lookupAvail (inventory : List (String × Avail)) (key : String) : Avail :=
  match inventory.find? (fun p => p.1 == key) with
  | some p => p.2
  | none => { normal := 0, fine := 0 }

/-- JS `Math.min(...xs)`: `Infinity` when `xs` is empty, otherwise the
minimum of the (non-negative integer) arguments. -/
def jsMin : List Nat → JsNum
  | [] => JsNum.inf
  | x :: xs => JsNum.fin (xs.foldl Nat.min x)

/-- JS truthiness of a `JsNum`: `Infinity` and every non-zero integer
are truthy; `0` is falsy. -/
def jsTruthy : JsNum → Bool
  | JsNum.inf => true
  | JsNum.fin n => n != 0

/-- JS `x || 0` on a `JsNum` (+page.svelte:1103-1104). -/
def jsOrZero (n : JsNum) : JsNum :=
  if jsTruthy n then n else JsNum.fin 0

/-- JS `x > 0` on a `JsNum` (+page.svelte:1105-1106): `Infinity > 0` is
true. -/
def jsGtZero : JsNum → Bool
  | JsNum.inf => true
  | JsNum.fin n => decide (0 < n)

/-- The result record of `calculateCraftingTimes`.  `normal`/`fine` are
`JsNum` because `Math.min` over an empty materials list yields
`Infinity`, which `|| 0` does not clamp (Infinity is truthy).
`missingLevel` is `requiredLevel - currentLevel`, an ordinary (possibly
negative-free here, but JS) integer. -/
structure CraftingTimes where
  normal : JsNum
  fine : JsNum
  canCraftNormal : Bool
  canCraftFine : Bool
  missingLevel : Int
deriving DecidableEq

/-- Embedding of `calculateCraftingTimes` (+page.svelte:1073-1109).  The source reads
`recipe.requirements.profession.level` unconditionally; when
`profession` is absent that dereference throws a `TypeError`, embedded
here as `none`.  `Math.floor(available / amount)` is embedded as `Nat`
floor division, faithful for the data model's positive amounts (§3:
`amount` a positive integer; JS would give Infinity/NaN for
`amount = 0`, which is outside the model and excluded by hypothesis in
the theorems that touch division). -/
def calculateCraftingTimes (skills : List (String × Nat)) (recipe : Recipe)
    (inventory : List (String × Avail)) : Option CraftingTimes :=
  match recipe.requirements.profession with
  | none => none
  | some prof =>
    let requiredLevel := prof.level
    let skillName := toLowerString prof.name
    let currentLevel := getSkillLevel skills skillName
    if currentLevel < requiredLevel then
      some { normal := JsNum.fin 0
             fine := JsNum.fin 0
             canCraftNormal := false
             canCraftFine := false
             missingLevel := (requiredLevel : Int) - (currentLevel : Int) }
    else
      let normalTimes := jsMin (recipe.requirements.materials.map (fun material =>
        (lookupAvail inventory (recipeNameToInventoryName material.name)).normal
          / material.amount))
      let fineTimes := jsMin (recipe.requirements.materials.map (fun material =>
        (lookupAvail inventory (recipeNameToInventoryName material.name)).fine
          / material.amount))
      some { normal := jsOrZero normalTimes
             fine := jsOrZero fineTimes
             canCraftNormal := jsGtZero normalTimes
             canCraftFine := jsGtZero fineTimes
             missingLevel := 0 }

/-!  Inventory aggregator (`inventoryItems`, +page.svelte:1112-1180)  -/

/-- One aggregated entry of `allItems`.  The `icon` field of the source
is a presentation-only lookup into `icons.json` and carries no
quantity information; it is omitted.  `hasFine` is set from the first
quantity that creates the entry, exactly as in the source. -/
structure AggItem where
  normalQuantity : Nat
  fineQuantity : Nat
  hasFine : Bool
deriving DecidableEq

/-- Insert-or-accumulate into the `allItems` object
(+page.svelte:1130-1140): if an entry for `normalizedName` exists its
two counters are bumped, otherwise a fresh entry is appended (JS object
insertion order). -/
def bumpEntry : List (String × AggItem) → String → Nat → Nat →
    List (String × AggItem)
  | [], normalizedName, nq, fq =>
    [(normalizedName,
      { normalQuantity := nq, fineQuantity := fq, hasFine := decide (0 < fq) })]
  | (k, v) :: rest, normalizedName, nq, fq =>
    if k == normalizedName then
      (k, { v with normalQuantity := v.normalQuantity + nq
                   fineQuantity := v.fineQuantity + fq }) :: rest
    else
      (k, v) :: bumpEntry rest normalizedName nq fq

/-- The per-entry body shared by the inventory and bank loops
(+page.svelte:1116-1141 and 1145-1170): detect the `_fine` suffix,
strip it, route the quantity to the fine or the normal counter, and
accumulate under `normalizeItemName` of the *stripped* base name. -/
def addInvEntry (acc : List (String × AggItem)) (name : String)
    (quantity : Nat) : List (String × AggItem) :=
  let isFine := endsWithFine name
  let baseName := if isFine then dropFineSuffix name else name
  let fineQuantity := if isFine then quantity else 0
  let normalQuantity := if isFine then 0 else quantity
  bumpEntry acc (normalizeItemName baseName) normalQuantity fineQuantity

/-- Embedding of `inventoryItems` (+page.svelte:1112-1180) up to the final
display-only `.sort((a,b) => a.name.localeCompare(b.name))`, which only
permutes the entries (locale-defined collation, presentation order):
process all inventory entries, then all bank entries if a bank is
present (`if (characterData.bank)`, +page.svelte:1144). -/
def inventoryItems (inventory : List (String × Nat))
    (bank : Option (List (String × Nat))) : List (String × AggItem) :=
  let afterInv := inventory.foldl (fun acc p => addInvEntry acc p.1 p.2) []
  match bank with
  | none => afterInv
  | some b => b.foldl (fun acc p => addInvEntry acc p.1 p.2) afterInv

/-- Downstream lookup into the aggregate: the entry's normal counter,
`0` when the name is absent (spec §4.3: absent names are `{0,0}`). -/
def aggNormal (agg : List (String × AggItem)) (n : String) : Nat :=
  match agg.find? (fun p => p.1 == n) with
  | some p => p.2.normalQuantity
  | none => 0

/-- Downstream lookup into the aggregate: the entry's fine counter,
`0` when the name is absent. -/
def aggFine (agg : List (String × AggItem)) (n : String) : Nat :=
  match agg.find? (fun p => p.1 == n) with
  | some p => p.2.fineQuantity
  | none => 0

/-- The normalized name a raw inventory/bank key is accumulated under:
the `_fine` suffix is stripped before `normalizeItemName` is applied. -/
def entryNormName (key : String) : String :=
  if endsWithFine key then normalizeItemName (dropFineSuffix key)
  else normalizeItemName key

/-- Spec-side sum (§8 property 3): total raw quantity of the non-fine
entries of a raw listing whose normalized name is `n`. -/
def sumNormalFor (n : String) : List (String × Nat) → Nat
  | [] => 0
  | (k, q) :: rest =>
    (if !(endsWithFine k) && (entryNormName k == n) then q else 0)
      + sumNormalFor n rest

/-- Spec-side sum (§8 property 3): total raw quantity of the fine
entries of a raw listing whose normalized name is `n`. -/
def sumFineFor (n : String) : List (String × Nat) → Nat
  | [] => 0
  | (k, q) :: rest =>
    (if (endsWithFine k) && (entryNormName k == n) then q else 0)
      + sumFineFor n rest

/-!  Character import (`importCharacter`, +page.svelte:996-1025)  -/

/-- The component state touched by `importCharacter`. -/
structure ImportState where
  characterData : Json
  importError : String
  showImportDialog : Bool
  importText : String

/-- JS property access `value.field` on a parsed JSON value: an object
yields the field (or `undefined`, embedded as `none`); primitives have
no such own property (`undefined`); `null` is handled separately by the
caller because `null.field` throws. -/
def jsGet (v : Json) (field : String) : Option Json :=
  match v with
  | Json.obj fields =>
    match fields.find? (fun p => p.1 == field) with
    | some p => some p.2
    | none => none
  | _ => none

/-- JS truthiness of a possibly-undefined JSON value. -/
def jsonTruthy : Option Json → Bool
  | none => false
  | some Json.null => false
  | some (Json.bool b) => b
  | some (Json.num n) => n != 0
  | some (Json.str s) => s != ""
  | some (Json.arr _) => true
  | some (Json.obj _) => true

/-- JS `typeof v === 'object'` for a possibly-undefined JSON value:
true exactly for `null`, arrays and objects. -/
def jsonTypeofObject : Option Json → Bool
  | some Json.null => true
  | some (Json.arr _) => true
  | some (Json.obj _) => true
  | _ => false

/-- The validation the source applies to a field
(`!v || typeof v !== 'object'` means reject): the field is accepted
exactly when it is truthy *and* of `typeof` "object", i.e. when it is a
JSON array or a JSON object. -/
def fieldAccepted (v : Option Json) : Bool :=
  jsonTruthy v && jsonTypeofObject v

/-- Embedding of `importCharacter` (+page.svelte:996-1025), over the already-parsed
input (`none` embeds a `JSON.parse` throw, caught at +page.svelte:1022).
Reading `.skills` off a parsed `null` also throws a `TypeError`, caught
by the same handler.  A validation failure sets `importError` and
returns before `characterData` is replaced; success adopts the record,
closes the dialog and clears the text. -/
def importCharacter (parsed : Option Json) (st : ImportState) : ImportState :=
  match parsed with
  | none =>
    { st with importError := "JSON inválido. Por favor, verifica el formato." }
  | some Json.null =>
    { st with importError := "JSON inválido. Por favor, verifica el formato." }
  | some nc =>
    if !(fieldAccepted (jsGet nc "skills")) then
      { st with importError := "El JSON debe contener un objeto 'skills'" }
    else if !(fieldAccepted (jsGet nc "inventory")) then
      { st with importError := "El JSON debe contener un objeto 'inventory'" }
    else
      { characterData := nc
        importError := ""
        showImportDialog := false
        importText := "" }

/-!  Spec-side expressions and concrete fixtures  -/

/-- Spec-side minimum (§4.5 step 5 / §8 property 4): the minimum of a
list of naturals, with the spec's zero clamp for the empty list. -/
def natMinList : List Nat → Nat
  | [] => 0
  | x :: xs => xs.foldl Nat.min x

/-- Fixture: the carpentry level-1 profession requirement of the §8
scenario. -/
def carpentryLv1 : Profession := { name := "Carpentry", level := 1 }

/-- Fixture: the §8 scenario character's skills — carpentry at 200 xp
(level 3). -/
def demoSkills : List (String × Nat) := [("carpentry", 200)]

/-- Fixture: the §8 scenario recipe (also the fallback recipe of
generate-recipes.ts:128-143). -/
def birchRecipe : Recipe :=
  { name := "Create a Birch Plank (Scrap)"
    output := "Birch Plank"
    requirements :=
      { profession := some carpentryLv1
        materials := [{ name := "Wood Scrap", amount := 5 }]
        service := some "Basic Sawmill" } }

/-- Fixture: the §8 scenario availability map — 12 normal wood scrap. -/
def demoInventory : List (String × Avail) :=
  [("wood_scrap", { normal := 12, fine := 0 })]

/-- Fixture: a recipe whose materials list is empty (level gate at 1). -/
def emptyMatRecipe : Recipe :=
  { name := "Empty Recipe"
    output := "Nothing"
    requirements :=
      { profession := some carpentryLv1
        materials := []
        service := none } }

/-- Fixture: a recipe with no profession requirement, as
generate-recipes.ts:104-109 emits when the wiki level cell is empty. -/
def noProfRecipe : Recipe :=
  { name := "Gather Sticks"
    output := "Wooden Stick"
    requirements :=
      { profession := none
        materials := [{ name := "Wooden Stick", amount := 1 }]
        service := none } }

/-- Fixture: a smithing level-99 profession requirement. -/
def smithLv99 : Profession := { name := "Smithing", level := 99 }

/-- Fixture: a recipe gated at smithing level 99. -/
def smithRecipe : Recipe :=
  { name := "Forge a Crown"
    output := "Crown"
    requirements :=
      { profession := some smithLv99
        materials := [{ name := "Iron Bar", amount := 1 }]
        service := none } }

/-- Fixture: an availability map rich enough to craft `smithRecipe`
many times over, to witness that the level gate ignores it. -/
def richInventory : List (String × Avail) :=
  [("iron_bar", { normal := 50, fine := 50 })]

/-- Fixture: a recipe whose profession ("Alchemy", level 1) is unknown
to the demo character. -/
def alchemyRecipe : Recipe :=
  { name := "Brew Potion"
    output := "Potion"
    requirements :=
      { profession := some { name := "Alchemy", level := 1 }
        materials := [{ name := "Coal", amount := 2 }]
        service := none } }

/-- Fixture: an import record whose `skills` field is a JSON array —
malformed in the sense of the spec (not a key-value mapping). -/
def badImport : Json :=
  Json.obj [("skills", Json.arr []), ("inventory", Json.obj [])]

/-- Fixture: an import record whose `skills` field is a JSON number. -/
def badSkillsImport : Json :=
  Json.obj [("skills", Json.num 5), ("inventory", Json.obj [])]

/-- Fixture: a previously valid component state awaiting an import. -/
def prevState : ImportState :=
  { characterData := Json.obj [("skills", Json.obj []), ("inventory", Json.obj [])]
    importError := ""
    showImportDialog := true
    importText := "pending" }

/-!  Level resolver lemmas  -/

/-- The descending scan never exceeds its starting level plus one. -/
theorem xpToLevelGo_le (xp l : Nat) : xpToLevelGo xp l ≤ l + 1 := by
  induction l with
  | zero => simp [xpToLevelGo]
  | succ l ih =>
    simp only [xpToLevelGo]
    split
    · exact Nat.le_succ _
    · exact Nat.le_trans ih (Nat.le_succ _)

/-- The descending scan never returns below level 1. -/
theorem xpToLevelGo_ge_one (xp l : Nat) : 1 ≤ xpToLevelGo xp l := by
  induction l with
  | zero => simp [xpToLevelGo]
  | succ l ih =>
    simp only [xpToLevelGo]
    split
    · omega
    · exact ih

/-- Monotonicity of the descending scan in the experience argument,
for any threshold table contents. -/
theorem xpToLevelGo_mono (xp1 xp2 : Nat) (h : xp1 ≤ xp2) (l : Nat) :
    xpToLevelGo xp1 l ≤ xpToLevelGo xp2 l := by
  induction l with
  | zero => exact Nat.le_refl _
  | succ l ih =>
    simp only [xpToLevelGo]
    by_cases h1 : SKILL_LEVELS (l + 1) ≤ xp1
    · rw [if_pos h1, if_pos (Nat.le_trans h1 h)]
    · rw [if_neg h1]
      by_cases h2 : SKILL_LEVELS (l + 1) ≤ xp2
      · rw [if_pos h2]
        exact xpToLevelGo_le xp1 l
      · rw [if_neg h2]
        exact ih

/-- C9 (confirmed): the level resolver is monotone — for all experience
values `xp1 ≤ xp2`, `xpToLevel xp1 ≤ xpToLevel xp2`.  The proof uses no
fact about the threshold table's values. -/
theorem xpToLevel_monotone (xp1 xp2 : Nat) (h : xp1 ≤ xp2) :
    xpToLevel xp1 ≤ xpToLevel xp2 :=
  xpToLevelGo_mono xp1 xp2 h 99

/-- Witness for C9 at xp1 = 100, xp2 = 200. -/
theorem xpToLevel_monotone_witness :
    100 ≤ 200 ∧ xpToLevel 100 ≤ xpToLevel 200 :=
  ⟨by decide, xpToLevel_monotone 100 200 (by decide)⟩

/-- C5 (corrected), counterexample: a profession absent from the skills
mapping resolves to level 1, not level 0 (`xpToLevel 0 = 1`, because the
level-1 threshold is 0); consequently a level-1 recipe in an unknown
profession passes the level gate (missingLevel 0) instead of failing it
with missingLevel 1 as level 0 would force. -/
theorem unknown_profession_counterexample :
    getSkillLevel [] "alchemy" = 1 ∧ getSkillLevel [] "alchemy" ≠ 0 ∧
    calculateCraftingTimes [] alchemyRecipe [] =
      some { normal := JsNum.fin 0
             fine := JsNum.fin 0
             canCraftNormal := false
             canCraftFine := false
             missingLevel := 0 } := by
  decide

/-- C5 (corrected), amended: when the required profession name has no
entry in the character's skills mapping, the looked-up experience is 0
and the resolved current level is `xpToLevel 0 = 1` (never 0 — the
resolver's range is `[1, 99]`). -/
theorem unknown_profession_level_is_one (skills : List (String × Nat))
    (name : String) (h : skills.find? (fun p => p.1 == name) = none) :
    getSkillLevel skills name = 1 := by
  simp only [getSkillLevel, h]
  decide

/-- Witness for the amended C5 at the empty skills mapping. -/
theorem unknown_profession_level_is_one_witness :
    ([] : List (String × Nat)).find? (fun p => p.1 == "alchemy") = none ∧
    getSkillLevel [] "alchemy" = 1 :=
  ⟨rfl, unknown_profession_level_is_one [] "alchemy" rfl⟩

/-- C4 (corrected), counterexample: on a recipe without a profession
requirement the evaluator does not return a result — the source
dereferences `recipe.requirements.profession.level`, which throws a
`TypeError` (embedded as `none`) instead of treating the recipe as
always-unlocked. -/
theorem absent_profession_counterexample :
    calculateCraftingTimes [] noProfRecipe [] = none := rfl

/-- C4 (corrected), amended: the evaluator is not total on recipes with
the optional `profession` field absent — it raises (returns no result)
for every such recipe, regardless of skills and inventory. -/
theorem absent_profession_raises (skills : List (String × Nat))
    (recipe : Recipe) (inventory : List (String × Avail))
    (h : recipe.requirements.profession = none) :
    calculateCraftingTimes skills recipe inventory = none := by
  simp [calculateCraftingTimes, h]

/-- Witness for the amended C4 at the professionless fixture recipe. -/
theorem absent_profession_raises_witness :
    noProfRecipe.requirements.profession = none ∧
    calculateCraftingTimes [] noProfRecipe [] = none :=
  ⟨rfl, absent_profession_raises [] noProfRecipe [] rfl⟩

/-!  Crafting feasibility evaluator claims  -/

/-- JS `|| 0` is the identity on finite values: 0 is replaced by 0 and
a non-zero value is truthy. -/
theorem jsOrZero_fin (k : Nat) : jsOrZero (JsNum.fin k) = JsNum.fin k := by
  cases k with
  | zero => rfl
  | succ n => rfl

/-- C1 (corrected), counterexample: on a recipe with an empty materials
list whose level gate passes, the evaluator returns `Infinity` for both
craftable counts (`Math.min()` of an empty spread) and `canCraftNormal
= canCraftFine = true` (`Infinity` is truthy and `> 0`) — not the
claimed zero craftability. -/
theorem empty_materials_counterexample :
    calculateCraftingTimes demoSkills emptyMatRecipe [] =
      some { normal := JsNum.inf
             fine := JsNum.inf
             canCraftNormal := true
             canCraftFine := true
             missingLevel := 0 } ∧
    JsNum.inf ≠ JsNum.fin 0 := by
  decide

/-- C1 (corrected), amended: for every recipe whose materials list is
empty and whose level gate passes, the evaluator returns unconstrained
(infinite) craftability for both tiers, with `canCraftNormal =
canCraftFine = true` and `missingLevel = 0`. -/
theorem empty_materials_gives_infinity (skills : List (String × Nat))
    (recipe : Recipe) (inventory : List (String × Avail)) (prof : Profession)
    (hp : recipe.requirements.profession = some prof)
    (hm : recipe.requirements.materials = [])
    (hg : prof.level ≤ getSkillLevel skills (toLowerString prof.name)) :
    calculateCraftingTimes skills recipe inventory =
      some { normal := JsNum.inf
             fine := JsNum.inf
             canCraftNormal := true
             canCraftFine := true
             missingLevel := 0 } := by
  have hlt : ¬ (getSkillLevel skills (toLowerString prof.name) < prof.level) :=
    Nat.not_lt.mpr hg
  simp [calculateCraftingTimes, hp, hm, hlt, jsMin, jsOrZero, jsTruthy, jsGtZero]

/-- Witness for the amended C1 at the empty-materials fixture. -/
theorem empty_materials_gives_infinity_witness :
    emptyMatRecipe.requirements.profession = some carpentryLv1 ∧
    emptyMatRecipe.requirements.materials = [] ∧
    carpentryLv1.level ≤ getSkillLevel demoSkills (toLowerString carpentryLv1.name) ∧
    calculateCraftingTimes demoSkills emptyMatRecipe [] =
      some { normal := JsNum.inf
             fine := JsNum.inf
             canCraftNormal := true
             canCraftFine := true
             missingLevel := 0 } :=
  ⟨rfl, rfl, by decide,
    empty_materials_gives_infinity demoSkills emptyMatRecipe [] carpentryLv1
      rfl rfl (by decide)⟩

/-- C3 (confirmed): when the current level in the required profession is
strictly below the required level, the evaluator returns
`{normal: 0, fine: 0, canCraftNormal: false, canCraftFine: false,
missingLevel: requiredLevel - currentLevel}` for *every* inventory (the
check short-circuits — material availability is never consulted), and
`missingLevel` is strictly positive. -/
theorem level_gate_short_circuits (skills : List (String × Nat))
    (recipe : Recipe) (prof : Profession)
    (hp : recipe.requirements.profession = some prof)
    (hlv : getSkillLevel skills (toLowerString prof.name) < prof.level) :
    (∀ inventory : List (String × Avail),
      calculateCraftingTimes skills recipe inventory =
        some { normal := JsNum.fin 0
               fine := JsNum.fin 0
               canCraftNormal := false
               canCraftFine := false
               missingLevel :=
                 (prof.level : Int)
                   - (getSkillLevel skills (toLowerString prof.name) : Int) }) ∧
    0 < (prof.level : Int) - (getSkillLevel skills (toLowerString prof.name) : Int) := by
  constructor
  · intro inventory
    simp [calculateCraftingTimes, hp, hlv]
  · omega

/-- Witness for C3: a level-99 smithing recipe against a fresh
character, evaluated on an inventory rich enough to craft it many times
over — the result is still level-gated with `missingLevel = 98`. -/
theorem level_gate_short_circuits_witness :
    smithRecipe.requirements.profession = some smithLv99 ∧
    getSkillLevel [] (toLowerString smithLv99.name) < smithLv99.level ∧
    calculateCraftingTimes [] smithRecipe richInventory =
      some { normal := JsNum.fin 0
             fine := JsNum.fin 0
             canCraftNormal := false
             canCraftFine := false
             missingLevel :=
               (smithLv99.level : Int)
                 - (getSkillLevel [] (toLowerString smithLv99.name) : Int) } :=
  ⟨rfl, by decide,
    (level_gate_short_circuits [] smithRecipe smithLv99 rfl (by decide)).1
      richInventory⟩

/-- C2 (confirmed): with a non-empty materials list, a passing level
gate, and (data-model-conformant) positive amounts, the evaluator
returns for each tier exactly the minimum over all required materials of
`floor(availableQuantity / amount)`, where the availability of a
material name is looked up under `recipeNameToInventoryName` and
defaults to `{0, 0}` when absent; `canCraft` is that minimum's
positivity and `missingLevel = 0`. -/
theorem craftable_counts_are_material_minima (skills : List (String × Nat))
    (recipe : Recipe) (inventory : List (String × Avail)) (prof : Profession)
    (hp : recipe.requirements.profession = some prof)
    (hm : recipe.requirements.materials ≠ [])
    (hg : prof.level ≤ getSkillLevel skills (toLowerString prof.name))
    (_hamt : ∀ m ∈ recipe.requirements.materials, 0 < m.amount) :
    calculateCraftingTimes skills recipe inventory =
      some { normal := JsNum.fin (natMinList (recipe.requirements.materials.map
               (fun m => (lookupAvail inventory
                 (recipeNameToInventoryName m.name)).normal / m.amount)))
             fine := JsNum.fin (natMinList (recipe.requirements.materials.map
               (fun m => (lookupAvail inventory
                 (recipeNameToInventoryName m.name)).fine / m.amount)))
             canCraftNormal :=
               decide (0 < natMinList (recipe.requirements.materials.map
                 (fun m => (lookupAvail inventory
                   (recipeNameToInventoryName m.name)).normal / m.amount)))
             canCraftFine :=
               decide (0 < natMinList (recipe.requirements.materials.map
                 (fun m => (lookupAvail inventory
                   (recipeNameToInventoryName m.name)).fine / m.amount)))
             missingLevel := 0 } := by
  have hlt : ¬ (getSkillLevel skills (toLowerString prof.name) < prof.level) :=
    Nat.not_lt.mpr hg
  obtain ⟨m, rest, hcons⟩ : ∃ m rest, recipe.requirements.materials = m :: rest := by
    cases hmat : recipe.requirements.materials with
    | nil => exact absurd hmat hm
    | cons a l => exact ⟨a, l, rfl⟩
  simp [calculateCraftingTimes, hp, hlt, hcons, jsMin, jsOrZero_fin, jsGtZero,
    natMinList]

/-- Witness for C2: the §8 scenario — carpentry xp 200 (level 3 ≥ 1),
12 wood scrap, amount 5; the stated minima evaluate to `floor(12/5) = 2`
normal and `floor(0/5) = 0` fine. -/
theorem craftable_counts_are_material_minima_witness :
    birchRecipe.requirements.profession = some carpentryLv1 ∧
    birchRecipe.requirements.materials ≠ [] ∧
    carpentryLv1.level ≤ getSkillLevel demoSkills (toLowerString carpentryLv1.name) ∧
    (∀ m ∈ birchRecipe.requirements.materials, 0 < m.amount) ∧
    calculateCraftingTimes demoSkills birchRecipe demoInventory =
      some { normal := JsNum.fin (natMinList (birchRecipe.requirements.materials.map
               (fun m => (lookupAvail demoInventory
                 (recipeNameToInventoryName m.name)).normal / m.amount)))
             fine := JsNum.fin (natMinList (birchRecipe.requirements.materials.map
               (fun m => (lookupAvail demoInventory
                 (recipeNameToInventoryName m.name)).fine / m.amount)))
             canCraftNormal :=
               decide (0 < natMinList (birchRecipe.requirements.materials.map
                 (fun m => (lookupAvail demoInventory
                   (recipeNameToInventoryName m.name)).normal / m.amount)))
             canCraftFine :=
               decide (0 < natMinList (birchRecipe.requirements.materials.map
                 (fun m => (lookupAvail demoInventory
                   (recipeNameToInventoryName m.name)).fine / m.amount)))
             missingLevel := 0 } :=
  ⟨rfl, by decide, by decide, by decide,
    craftable_counts_are_material_minima demoSkills birchRecipe demoInventory
      carpentryLv1 rfl (by decide) (by decide) (by decide)⟩

/-!  Inventory aggregator claims  -/

/-- C6 (corrected), counterexample: aggregating the single raw entry
`coal_fine: 3` (empty bank) produces an entry keyed `"Coal"` — the
aggregator strips the `_fine` suffix *before* normalizing
(+page.svelte:1122-1128) — so no entry named `"Fine Coal"` exists. -/
theorem coal_fine_counterexample :
    inventoryItems [("coal_fine", 3)] (some []) =
      [("Coal", { normalQuantity := 0, fineQuantity := 3, hasFine := true })] ∧
    (inventoryItems [("coal_fine", 3)] (some [])).find?
      (fun p => p.1 == "Fine Coal") = none := by
  decide

/-- C6 (corrected), amended: aggregating inventory `coal_fine: 3` with
an empty bank produces exactly one normalized entry, named `"Coal"`,
with `normalQuantity = 0` and `fineQuantity = 3`.  (The name
`"Fine Coal"` is what `normalizeItemName` returns on the *unstripped*
key — the normalizer and the aggregator disagree on where the fine
qualifier lives, and the aggregator keys by the stripped base name.) -/
theorem coal_fine_aggregates_under_base_name :
    (inventoryItems [("coal_fine", 3)] (some [])).map Prod.fst = ["Coal"] ∧
    aggNormal (inventoryItems [("coal_fine", 3)] (some [])) "Coal" = 0 ∧
    aggFine (inventoryItems [("coal_fine", 3)] (some [])) "Coal" = 3 ∧
    normalizeItemName "coal_fine" = "Fine Coal" := by
  decide

/-- Unfolding of the aggregate lookup over a cons cell (normal tier). -/
theorem aggNormal_cons (k : String) (v : AggItem)
    (rest : List (String × AggItem)) (n : String) :
    aggNormal ((k, v) :: rest) n =
      if k = n then v.normalQuantity else aggNormal rest n := by
  by_cases h : k = n <;> simp [aggNormal, List.find?_cons, h]

/-- Unfolding of the aggregate lookup over a cons cell (fine tier). -/
theorem aggFine_cons (k : String) (v : AggItem)
    (rest : List (String × AggItem)) (n : String) :
    aggFine ((k, v) :: rest) n =
      if k = n then v.fineQuantity else aggFine rest n := by
  by_cases h : k = n <;> simp [aggFine, List.find?_cons, h]

/-- Effect of one insert-or-accumulate step on the normal counter of an
arbitrary normalized name. -/
theorem bumpEntry_normal (acc : List (String × AggItem)) (nn : String)
    (nq fq : Nat) (n : String) :
    aggNormal (bumpEntry acc nn nq fq) n =
      aggNormal acc n + (if nn = n then nq else 0) := by
  induction acc with
  | nil =>
    by_cases h : nn = n <;>
      simp [bumpEntry, aggNormal_cons, aggNormal, h]
  | cons kv rest ih =>
    obtain ⟨k, v⟩ := kv
    by_cases hk : k = nn
    · subst hk
      have hb : bumpEntry ((k, v) :: rest) k nq fq =
          (k, { normalQuantity := v.normalQuantity + nq
                fineQuantity := v.fineQuantity + fq
                hasFine := v.hasFine }) :: rest := by
        simp [bumpEntry]
      rw [hb, aggNormal_cons, aggNormal_cons]
      by_cases hn : k = n
      · subst hn
        simp
      · simp [hn]
    · have hk2 : (k == nn) = false := beq_eq_false_iff_ne.mpr hk
      have hb : bumpEntry ((k, v) :: rest) nn nq fq =
          (k, v) :: bumpEntry rest nn nq fq := by
        simp [bumpEntry, hk2]
      rw [hb, aggNormal_cons, aggNormal_cons, ih]
      by_cases hn : k = n
      · subst hn
        have hnn : ¬ nn = k := fun hh => hk hh.symm
        simp [hnn]
      · simp [hn]

/-- Effect of one insert-or-accumulate step on the fine counter of an
arbitrary normalized name. -/
theorem bumpEntry_fine (acc : List (String × AggItem)) (nn : String)
    (nq fq : Nat) (n : String) :
    aggFine (bumpEntry acc nn nq fq) n =
      aggFine acc n + (if nn = n then fq else 0) := by
  induction acc with
  | nil =>
    by_cases h : nn = n <;>
      simp [bumpEntry, aggFine_cons, aggFine, h]
  | cons kv rest ih =>
    obtain ⟨k, v⟩ := kv
    by_cases hk : k = nn
    · subst hk
      have hb : bumpEntry ((k, v) :: rest) k nq fq =
          (k, { normalQuantity := v.normalQuantity + nq
                fineQuantity := v.fineQuantity + fq
                hasFine := v.hasFine }) :: rest := by
        simp [bumpEntry]
      rw [hb, aggFine_cons, aggFine_cons]
      by_cases hn : k = n
      · subst hn
        simp
      · simp [hn]
    · have hk2 : (k == nn) = false := beq_eq_false_iff_ne.mpr hk
      have hb : bumpEntry ((k, v) :: rest) nn nq fq =
          (k, v) :: bumpEntry rest nn nq fq := by
        simp [bumpEntry, hk2]
      rw [hb, aggFine_cons, aggFine_cons, ih]
      by_cases hn : k = n
      · subst hn
        have hnn : ¬ nn = k := fun hh => hk hh.symm
        simp [hnn]
      · simp [hn]

/-- Processing one raw inventory/bank entry adds its quantity to the
normal counter of its normalized name exactly when it lacks the fine
suffix. -/
theorem addInvEntry_normal (acc : List (String × AggItem)) (key : String)
    (q : Nat) (n : String) :
    aggNormal (addInvEntry acc key q) n =
      aggNormal acc n
        + (if !(endsWithFine key) && (entryNormName key == n) then q else 0) := by
  by_cases hf : endsWithFine key = true
  · simp only [addInvEntry, entryNormName, hf, if_true]
    rw [bumpEntry_normal]
    simp
  · have hf2 : endsWithFine key = false := Bool.not_eq_true _ ▸ Bool.of_not_eq_true hf
    simp only [addInvEntry, entryNormName, hf2, Bool.false_eq_true, if_false]
    rw [bumpEntry_normal]
    by_cases hn : normalizeItemName key = n <;> simp [hn]

/-- Processing one raw inventory/bank entry adds its quantity to the
fine counter of its normalized name exactly when it has the fine
suffix. -/
theorem addInvEntry_fine (acc : List (String × AggItem)) (key : String)
    (q : Nat) (n : String) :
    aggFine (addInvEntry acc key q) n =
      aggFine acc n
        + (if (endsWithFine key) && (entryNormName key == n) then q else 0) := by
  by_cases hf : endsWithFine key = true
  · simp only [addInvEntry, entryNormName, hf, if_true]
    rw [bumpEntry_fine]
    by_cases hn : normalizeItemName (dropFineSuffix key) = n <;> simp [hn]
  · have hf2 : endsWithFine key = false := Bool.not_eq_true _ ▸ Bool.of_not_eq_true hf
    simp only [addInvEntry, entryNormName, hf2, Bool.false_eq_true, if_false]
    rw [bumpEntry_fine]
    simp

/-- Folding a raw listing into an accumulator adds, per normalized
name, exactly the listing's non-fine contribution (normal tier). -/
theorem foldl_addInv_normal (entries : List (String × Nat))
    (acc : List (String × AggItem)) (n : String) :
    aggNormal (entries.foldl (fun acc p => addInvEntry acc p.1 p.2) acc) n =
      aggNormal acc n + sumNormalFor n entries := by
  induction entries generalizing acc with
  | nil => simp [sumNormalFor]
  | cons e rest ih =>
    obtain ⟨k, q⟩ := e
    rw [List.foldl_cons, ih, addInvEntry_normal]
    simp only [sumNormalFor]
    omega

/-- Folding a raw listing into an accumulator adds, per normalized
name, exactly the listing's fine contribution (fine tier). -/
theorem foldl_addInv_fine (entries : List (String × Nat))
    (acc : List (String × AggItem)) (n : String) :
    aggFine (entries.foldl (fun acc p => addInvEntry acc p.1 p.2) acc) n =
      aggFine acc n + sumFineFor n entries := by
  induction entries generalizing acc with
  | nil => simp [sumFineFor]
  | cons e rest ih =>
    obtain ⟨k, q⟩ := e
    rw [List.foldl_cons, ih, addInvEntry_fine]
    simp only [sumFineFor]
    omega

/-- The spec-side normal-tier sum distributes over concatenation. -/
theorem sumNormalFor_append (n : String) (a b : List (String × Nat)) :
    sumNormalFor n (a ++ b) = sumNormalFor n a + sumNormalFor n b := by
  induction a with
  | nil => simp [sumNormalFor]
  | cons e rest ih =>
    obtain ⟨k, q⟩ := e
    simp only [List.cons_append, sumNormalFor, List.append_eq]
    rw [ih]
    omega

/-- The spec-side fine-tier sum distributes over concatenation. -/
theorem sumFineFor_append (n : String) (a b : List (String × Nat)) :
    sumFineFor n (a ++ b) = sumFineFor n a + sumFineFor n b := by
  induction a with
  | nil => simp [sumFineFor]
  | cons e rest ih =>
    obtain ⟨k, q⟩ := e
    simp only [List.cons_append, sumFineFor, List.append_eq]
    rw [ih]
    omega

/-- C7 (confirmed): for every inventory and bank, the aggregated entry
for a normalized name holds exactly the sum of all raw inventory and
bank quantities whose normalized name matches, fine-suffixed raw keys
accumulating into `fineQuantity` and the rest into `normalQuantity`
(absent names read as 0); and an absent bank contributes nothing — it
is interchangeable with an empty bank mapping. -/
theorem aggregation_additivity (inv bank : List (String × Nat)) (n : String) :
    aggNormal (inventoryItems inv (some bank)) n = sumNormalFor n (inv ++ bank) ∧
    aggFine (inventoryItems inv (some bank)) n = sumFineFor n (inv ++ bank) ∧
    inventoryItems inv none = inventoryItems inv (some []) := by
  refine ⟨?_, ?_, rfl⟩
  · simp only [inventoryItems]
    rw [foldl_addInv_normal, foldl_addInv_normal, sumNormalFor_append]
    simp only [aggNormal, List.find?]
    omega
  · simp only [inventoryItems]
    rw [foldl_addInv_fine, foldl_addInv_fine, sumFineFor_append]
    simp only [aggFine, List.find?]
    omega

/-!  Character import claims  -/

/-- C8 (corrected), counterexample: the import record
`{skills: [], inventory: {}}` is malformed in the claim's sense — its
`skills` field is a JSON array, not a key-value mapping — yet the
validation (`!v || typeof v !== 'object'`) accepts it: `typeof` of an
array is `'object'`.  The record is adopted wholesale (`characterData`
is replaced, no validation failure is reported), so the previously
valid character record does not remain in effect. -/
theorem import_array_counterexample :
    jsGet badImport "skills" = some (Json.arr []) ∧
    (importCharacter (some badImport) prevState).characterData = badImport ∧
    (importCharacter (some badImport) prevState).importError = "" ∧
    badImport ≠ prevState.characterData := by
  refine ⟨rfl, rfl, rfl, ?_⟩
  intro h
  simp [badImport, prevState] at h

/-- C8 (corrected), amended: the validation rejects an import record
exactly when a required field fails the source's check — `skills` or
`inventory` missing, `null`, or a non-object primitive (number, string,
boolean); a JSON *array* passes.  Whenever a field fails that check
the record is rejected with a non-empty error message and the previous
character record remains in effect unchanged (no partial adoption). -/
theorem import_rejects_nonobject_fields (nc : Json) (st : ImportState)
    (h : fieldAccepted (jsGet nc "skills") = false ∨
         fieldAccepted (jsGet nc "inventory") = false) :
    (importCharacter (some nc) st).characterData = st.characterData ∧
    (importCharacter (some nc) st).importError ≠ "" := by
  cases nc with
  | null =>
    refine ⟨rfl, ?_⟩
    show ("JSON inválido. Por favor, verifica el formato." : String) ≠ ""
    decide
  | bool b =>
    refine ⟨rfl, ?_⟩
    show ("El JSON debe contener un objeto 'skills'" : String) ≠ ""
    decide
  | num n =>
    refine ⟨rfl, ?_⟩
    show ("El JSON debe contener un objeto 'skills'" : String) ≠ ""
    decide
  | str s =>
    refine ⟨rfl, ?_⟩
    show ("El JSON debe contener un objeto 'skills'" : String) ≠ ""
    decide
  | arr xs =>
    refine ⟨rfl, ?_⟩
    show ("El JSON debe contener un objeto 'skills'" : String) ≠ ""
    decide
  | obj fields =>
    by_cases hs : fieldAccepted (jsGet (Json.obj fields) "skills") = true
    · have hi : fieldAccepted (jsGet (Json.obj fields) "inventory") = false := by
        cases h with
        | inl h1 => rw [h1] at hs; cases hs
        | inr h2 => exact h2
      constructor
      · simp [importCharacter, hs, hi]
      · simp [importCharacter, hs, hi]
    · have hs2 : fieldAccepted (jsGet (Json.obj fields) "skills") = false :=
        Bool.of_not_eq_true hs
      constructor
      · simp [importCharacter, hs2]
      · simp [importCharacter, hs2]

/-- Witness for the amended C8: a record whose `skills` field is the
number 5 is rejected and the previous state survives untouched. -/
theorem import_rejects_nonobject_fields_witness :
    (fieldAccepted (jsGet badSkillsImport "skills") = false ∨
      fieldAccepted (jsGet badSkillsImport "inventory") = false) ∧
    ((importCharacter (some badSkillsImport) prevState).characterData =
        prevState.characterData ∧
      (importCharacter (some badSkillsImport) prevState).importError ≠ "") :=
  ⟨Or.inl rfl,
    import_rejects_nonobject_fields badSkillsImport prevState (Or.inl rfl)⟩

end WalkscapePlanner
